import Mathlib

/-!
Shallow embedding of the Solana token-ledger program (`src/lib.rs`).

The program keeps one global `ContractState`: a `HashMap<TokenType, HashMap<Pubkey, u64>>`
mapping each supported token to its per-user balances.  Four instructions exist:
`AdminAddSupportedToken`, `AdminDeleteSupportedToken`, `UserDeposit`, `UserWithdraw`.
`process_instruction` decodes the instruction bytes (via `serde_json`, an external
decoder) and dispatches to one helper per instruction.

Embedding conventions:
* `HashMap` becomes an association list (`Map` below) with no duplicate keys on any
  reachable state; `insert` replaces an existing binding in place, `erase` drops every
  binding of the key (on duplicate-free maps this is exactly `HashMap::remove`).
* Rust's in-place mutation becomes explicit state passing: each helper returns the
  result together with the map as it stands when the helper returns, including
  mutations performed before an error exit (this matters for `user_withdraw_token`,
  whose `entry(user).or_insert(0)` runs before the insufficient-funds check).
* `u64` balances and amounts are `Nat`; the unchecked `+=` in `user_deposit_token`
  is modelled as addition modulo `2 ^ 64`, the wrapping semantics of the release
  profile in which Solana programs are built (a debug build would panic instead;
  either way no explicit overflow error is produced).
* A Rust panic (`unwrap` on a failed decode) is modelled as `none` at the outer
  level of `process_instruction`.
* `Pubkey` is an opaque fixed-size identifier used only for equality; it is modelled
  as a `String`.  The base58 parse of `ADMIN_PUBKEY` is elided for the same reason.
* `serde_json::from_slice` is an external collaborator; `process_instruction` takes
  the decoder as an explicit function parameter.
-/

deriving instance DecidableEq for Except

/-- `struct TokenType { symbol: String }` from the source. -/
structure TokenType where
  symbol : String
deriving DecidableEq, Repr

/-- `Pubkey`: an opaque identity value; only equality on it is used by the program. -/
abbrev Pubkey := String

/-- The subset of `solana_program::ProgramError` values the program produces. -/
inductive ProgramError where
  | MissingRequiredSignature : ProgramError
  | Custom : Nat → ProgramError
  | InsufficientFunds : ProgramError
deriving DecidableEq, Repr

/-- `enum ContractInstruction` from the source. -/
inductive ContractInstruction where
  | AdminAddSupportedToken : TokenType → ContractInstruction
  | AdminDeleteSupportedToken : TokenType → ContractInstruction
  | UserDeposit : TokenType → Pubkey → Nat → ContractInstruction
  | UserWithdraw : TokenType → Pubkey → Nat → ContractInstruction
deriving DecidableEq, Repr

/-- Association-list model of `std::collections::HashMap`. -/
abbrev Map (α β : Type) := List (α × β)

/-- Lookup: the value bound to the first occurrence of the key. -/
def mapFind? {α β : Type} [DecidableEq α] : Map α β → α → Option β
  | [], _ => none
  | (a, b) :: rest, k => if a = k then some b else mapFind? rest k

/-- `HashMap::contains_key`. -/
def mapContains {α β : Type} [DecidableEq α] (m : Map α β) (k : α) : Bool :=
  (mapFind? m k).isSome

/-- `HashMap::insert`: replace the binding of `k` if present, else add it. -/
def mapInsert {α β : Type} [DecidableEq α] : Map α β → α → β → Map α β
  | [], k, v => [(k, v)]
  | (a, b) :: rest, k, v =>
      if a = k then (k, v) :: rest else (a, b) :: mapInsert rest k v

/-- `HashMap::remove` (ignoring the returned value): drop every binding of `k`;
on a duplicate-free map, exactly one binding is dropped. -/
def mapErase {α β : Type} [DecidableEq α] (m : Map α β) (k : α) : Map α β :=
  m.filter (fun p => !(decide (p.1 = k)))

/-- The outer balances map: token → (user → u64 balance). -/
abbrev TokenBalances := Map TokenType (Map Pubkey Nat)

/-- `struct ContractState { all_token_balances: HashMap<TokenType, HashMap<Pubkey, u64>> }`. -/
structure ContractState where
  all_token_balances : TokenBalances
deriving DecidableEq, Repr

/-- `const ADMIN_PUBKEY` (base58 text; the parse via `Pubkey::from_str` is elided
because the program only ever compares or ignores the key). -/
def ADMIN_PUBKEY : Pubkey := "D6gQXdUX7AwrGtdQaCuZ5p1MwyXHaidWvKypdKY9bmkA"

/-- `const MOCK_SIG: [u8; 65] = [0u8; 65]`. -/
def MOCK_SIG : List Nat := List.replicate 65 0

/-- One more than the largest `u64` value; `u64` arithmetic wraps modulo this. -/
def U64_MOD : Nat := 2 ^ 64

/-- `fn verify_signature`: the source stub ignores both arguments and returns `true`
(`// todo, do not verify signature by far`). -/
def verify_signature (_pubkey : Pubkey) (_sig : List Nat) : Bool :=
  true

/-- `fn check_add_token`: admin signature gate (stubbed), then reject a duplicate
token with `Custom(0)`, else insert the token with an empty user map. -/
def check_add_token (token : TokenType) (atb : TokenBalances) :
    (Except ProgramError Unit) × TokenBalances :=
  if !verify_signature ADMIN_PUBKEY MOCK_SIG then
    (.error .MissingRequiredSignature, atb)
  else if mapContains atb token then
    (.error (.Custom 0), atb)
  else
    (.ok (), mapInsert atb token [])

/-- `fn check_delete_token`: admin signature gate (stubbed), then reject an absent
token with `Custom(1)`, else remove the token and its whole user map. -/
def check_delete_token (token : TokenType) (atb : TokenBalances) :
    (Except ProgramError Unit) × TokenBalances :=
  if !verify_signature ADMIN_PUBKEY MOCK_SIG then
    (.error .MissingRequiredSignature, atb)
  else if !(mapContains atb token) then
    (.error (.Custom 1), atb)
  else
    (.ok (), mapErase atb token)

/-- `fn user_deposit_token`: user signature gate (stubbed), reject an absent token
with `Custom(2)`, else `*entry(user).or_insert(0) += amount` — an unchecked `u64`
addition, modelled with the release-profile wrapping semantics. -/
def user_deposit_token (token : TokenType) (user : Pubkey) (amount : Nat)
    (atb : TokenBalances) : (Except ProgramError Unit) × TokenBalances :=
  if !verify_signature user MOCK_SIG then
    (.error .MissingRequiredSignature, atb)
  else if !(mapContains atb token) then
    (.error (.Custom 2), atb)
  else
    let inner := (mapFind? atb token).getD []
    let b := (mapFind? inner user).getD 0
    (.ok (), mapInsert atb token (mapInsert inner user ((b + amount) % U64_MOD)))

/-- `fn user_withdraw_token`: user signature gate (stubbed), reject an absent token
with `Custom(3)`, then `entry(user).or_insert(0)` — which materializes a zero
balance for an absent user BEFORE the balance check — then fail with
`InsufficientFunds` when the balance is below `amount`, else subtract. -/
def user_withdraw_token (token : TokenType) (user : Pubkey) (amount : Nat)
    (atb : TokenBalances) : (Except ProgramError Unit) × TokenBalances :=
  if !verify_signature user MOCK_SIG then
    (.error .MissingRequiredSignature, atb)
  else if !(mapContains atb token) then
    (.error (.Custom 3), atb)
  else
    let inner := (mapFind? atb token).getD []
    let b := (mapFind? inner user).getD 0
    let inner0 := mapInsert inner user b
    if b < amount then
      (.error .InsufficientFunds, mapInsert atb token inner0)
    else
      (.ok (), mapInsert atb token (mapInsert inner0 user (b - amount)))

/-- The dispatch `match` inside `process_instruction`, acting on the locked state.
On a helper error the `?` operator returns the error while keeping whatever
mutations the helper already performed. -/
def process_decoded (i : ContractInstruction) (s : ContractState) :
    (Except ProgramError Unit) × ContractState :=
  match i with
  | .AdminAddSupportedToken token =>
      let r := check_add_token token s.all_token_balances
      (r.1, ⟨r.2⟩)
  | .AdminDeleteSupportedToken token =>
      let r := check_delete_token token s.all_token_balances
      (r.1, ⟨r.2⟩)
  | .UserDeposit token user amount =>
      let r := user_deposit_token token user amount s.all_token_balances
      (r.1, ⟨r.2⟩)
  | .UserWithdraw token user amount =>
      let r := user_withdraw_token token user amount s.all_token_balances
      (r.1, ⟨r.2⟩)

/-- The unused remainder of `solana_program::AccountInfo`: the program never reads
its `_accounts` argument, so only the key field is modelled. -/
structure AccountInfo where
  key : Pubkey
deriving DecidableEq, Repr

/-- `fn deserialize_instruction`: `serde_json::from_slice(data).unwrap()`.
The external decoder is the `decode` parameter; `unwrap` on a failed decode
panics, modelled as `none`.  A successful decode is returned as `Ok`. -/
def deserialize_instruction (decode : List Nat → Option ContractInstruction)
    (data : List Nat) : Option (Except ProgramError ContractInstruction) :=
  match decode data with
  | some i => some (.ok i)
  | none => none

/-- `fn process_instruction`: decode (panic on failure, `none`), then lock the
global state and dispatch.  `_program_id` and `_accounts` are ignored by the
source.  The prior global state is the explicit `s` argument; the result pairs
the returned `ProgramResult` with the state after the call. -/
def process_instruction (decode : List Nat → Option ContractInstruction)
    (_program_id : Pubkey) (_accounts : List AccountInfo)
    (instruction_data : List Nat) (s : ContractState) :
    Option ((Except ProgramError Unit) × ContractState) :=
  match deserialize_instruction decode instruction_data with
  | none => none
  | some (.error e) => some (.error e, s)
  | some (.ok i) => some (process_decoded i s)

/-- The initial global state: `all_token_balances: HashMap::new()`. -/
def initial_state : ContractState := ⟨[]⟩

/-- Modelled from the spec: `balance_of(asset, account) -> u64`, a pure lookup in
which absent entries read as 0.  The source has no such function (its tests read
the map directly); this observation is used only to state balance claims. -/
def balance_of (atb : TokenBalances) (token : TokenType) (user : Pubkey) : Nat :=
  (mapFind? ((mapFind? atb token).getD []) user).getD 0

/-- Well-formedness of an instruction: `u64` amounts fit in 64 bits (guaranteed by
the Rust types of the decoded instruction). -/
def instr_wf : ContractInstruction → Bool
  | .UserDeposit _ _ amount => decide (amount < U64_MOD)
  | .UserWithdraw _ _ amount => decide (amount < U64_MOD)
  | _ => true

/-- States reachable from the empty initial state by processing decoded commands. -/
inductive Reachable : ContractState → Prop where
  | init : Reachable initial_state
  | step (i : ContractInstruction) (s : ContractState) :
      Reachable s → instr_wf i = true → Reachable (process_decoded i s).2

/-- Every stored balance fits in a `u64`. -/
def ledger_wf (atb : TokenBalances) : Prop :=
  ∀ token inner, mapFind? atb token = some inner →
    ∀ user b, mapFind? inner user = some b → b < U64_MOD

/-- Sample token used in concrete evaluations (mirrors the source's test). -/
def solToken : TokenType := ⟨"sol"⟩

/-- Sample user key used in concrete evaluations. -/
def userA : Pubkey := "user-A"

/-- A second sample user key, absent from the states it is evaluated against. -/
def userB : Pubkey := "user-B"

/-- Lookup after insertion: the inserted key reads the new value, every other key
is unaffected. -/
theorem mapFind?_insert {α β : Type} [DecidableEq α] (m : Map α β) (k j : α) (v : β) :
    mapFind? (mapInsert m k v) j = if k = j then some v else mapFind? m j := by
  induction m with
  | nil => simp [mapInsert, mapFind?]
  | cons p rest ih =>
    obtain ⟨a, b⟩ := p
    by_cases hak : a = k <;> by_cases hkj : k = j <;> by_cases haj : a = j <;>
      simp_all [mapInsert, mapFind?]

/-- Lookup after erasure: the erased key reads nothing, every other key is
unaffected. -/
theorem mapFind?_erase {α β : Type} [DecidableEq α] (m : Map α β) (k j : α) :
    mapFind? (mapErase m k) j = if j = k then none else mapFind? m j := by
  induction m with
  | nil => by_cases h : j = k <;> simp [mapErase, mapFind?, h]
  | cons p rest ih =>
    obtain ⟨a, v⟩ := p
    by_cases hak : a = k <;> by_cases hjk : j = k <;> by_cases haj : a = j <;>
      simp_all [mapErase, mapFind?, List.filter]

/-- `contains` agrees with a successful lookup. -/
theorem mapContains_iff {α β : Type} [DecidableEq α] (m : Map α β) (k : α) :
    mapContains m k = true ↔ ∃ v, mapFind? m k = some v := by
  simp [mapContains, Option.isSome_iff_exists]

/-- Inserting an inner map whose balances all fit keeps the ledger well formed. -/
theorem ledger_wf_insert (atb : TokenBalances) (token : TokenType)
    (inner : Map Pubkey Nat) (hwf : ledger_wf atb)
    (hinner : ∀ user b, mapFind? inner user = some b → b < U64_MOD) :
    ledger_wf (mapInsert atb token inner) := by
  intro t i hfind u b hub
  rw [mapFind?_insert] at hfind
  by_cases h : token = t
  · rw [if_pos h] at hfind
    injection hfind with h2
    subst h2
    exact hinner u b hub
  · rw [if_neg h] at hfind
    exact hwf t i hfind u b hub

/-- Erasing a token keeps the ledger well formed. -/
theorem ledger_wf_erase (atb : TokenBalances) (token : TokenType)
    (hwf : ledger_wf atb) : ledger_wf (mapErase atb token) := by
  intro t i hfind u b hub
  rw [mapFind?_erase] at hfind
  by_cases h : t = token
  · rw [if_pos h] at hfind
    exact Option.noConfusion hfind
  · rw [if_neg h] at hfind
    exact hwf t i hfind u b hub

/-- Updating one user's balance with an in-range value keeps an inner map in range. -/
theorem inner_wf_insert (inner : Map Pubkey Nat) (user : Pubkey) (v : Nat)
    (hinner : ∀ u b, mapFind? inner u = some b → b < U64_MOD) (hv : v < U64_MOD) :
    ∀ u b, mapFind? (mapInsert inner user v) u = some b → b < U64_MOD := by
  intro u b hub
  rw [mapFind?_insert] at hub
  by_cases h : user = u
  · rw [if_pos h] at hub
    injection hub with h2
    subst h2
    exact hv
  · rw [if_neg h] at hub
    exact hinner u b hub

/-- A defaulted balance read from an in-range inner map is in range. -/
theorem getD_lt (inner : Map Pubkey Nat) (user : Pubkey)
    (hinner : ∀ u b, mapFind? inner u = some b → b < U64_MOD) :
    (mapFind? inner user).getD 0 < U64_MOD := by
  cases hf : mapFind? inner user with
  | none => simp [U64_MOD]
  | some b => simpa using hinner user b hf

/-- Each of the four dispatched commands preserves well-formedness of the ledger. -/
theorem ledger_wf_step (i : ContractInstruction) (s : ContractState)
    (hwf : ledger_wf s.all_token_balances) :
    ledger_wf (process_decoded i s).2.all_token_balances := by
  obtain ⟨atb⟩ := s
  cases i with
  | AdminAddSupportedToken token =>
    cases hc : mapContains atb token with
    | true => simpa [process_decoded, check_add_token, verify_signature, hc] using hwf
    | false =>
      have : (process_decoded (.AdminAddSupportedToken token) ⟨atb⟩).2.all_token_balances
          = mapInsert atb token [] := by
        simp [process_decoded, check_add_token, verify_signature, hc]
      rw [this]
      refine ledger_wf_insert atb token [] hwf ?_
      intro u b hub
      simp [mapFind?] at hub
  | AdminDeleteSupportedToken token =>
    cases hc : mapContains atb token with
    | true =>
      have : (process_decoded (.AdminDeleteSupportedToken token) ⟨atb⟩).2.all_token_balances
          = mapErase atb token := by
        simp [process_decoded, check_delete_token, verify_signature, hc]
      rw [this]
      exact ledger_wf_erase atb token hwf
    | false => simpa [process_decoded, check_delete_token, verify_signature, hc] using hwf
  | UserDeposit token user amount =>
    cases hc : mapContains atb token with
    | true =>
      obtain ⟨inner, hi⟩ := (mapContains_iff atb token).mp hc
      have hinner : ∀ u b, mapFind? inner u = some b → b < U64_MOD := hwf token inner hi
      have : (process_decoded (.UserDeposit token user amount) ⟨atb⟩).2.all_token_balances
          = mapInsert atb token
              (mapInsert inner user (((mapFind? inner user).getD 0 + amount) % U64_MOD)) := by
        simp [process_decoded, user_deposit_token, verify_signature, hc, hi]
      rw [this]
      refine ledger_wf_insert atb token _ hwf ?_
      refine inner_wf_insert inner user _ hinner ?_
      exact Nat.mod_lt _ (by simp [U64_MOD])
    | false => simpa [process_decoded, user_deposit_token, verify_signature, hc] using hwf
  | UserWithdraw token user amount =>
    cases hc : mapContains atb token with
    | true =>
      obtain ⟨inner, hi⟩ := (mapContains_iff atb token).mp hc
      have hinner : ∀ u b, mapFind? inner u = some b → b < U64_MOD := hwf token inner hi
      have hb : (mapFind? inner user).getD 0 < U64_MOD := getD_lt inner user hinner
      cases hlt : decide ((mapFind? inner user).getD 0 < amount) with
      | true =>
        have : (process_decoded (.UserWithdraw token user amount) ⟨atb⟩).2.all_token_balances
            = mapInsert atb token (mapInsert inner user ((mapFind? inner user).getD 0)) := by
          simp only [process_decoded, user_withdraw_token, verify_signature, hc, hi]
          simp [of_decide_eq_true hlt]
        rw [this]
        exact ledger_wf_insert atb token _ hwf (inner_wf_insert inner user _ hinner hb)
      | false =>
        have : (process_decoded (.UserWithdraw token user amount) ⟨atb⟩).2.all_token_balances
            = mapInsert atb token
                (mapInsert (mapInsert inner user ((mapFind? inner user).getD 0)) user
                  ((mapFind? inner user).getD 0 - amount)) := by
          simp only [process_decoded, user_withdraw_token, verify_signature, hc, hi]
          simp [of_decide_eq_false hlt]
        rw [this]
        refine ledger_wf_insert atb token _ hwf ?_
        refine inner_wf_insert _ user _ (inner_wf_insert inner user _ hinner hb) ?_
        exact Nat.lt_of_le_of_lt (Nat.sub_le _ _) hb
    | false => simpa [process_decoded, user_withdraw_token, verify_signature, hc] using hwf

/-- Every state reachable from the empty initial state has only `u64`-range balances. -/
theorem reachable_ledger_wf : ∀ s, Reachable s → ledger_wf s.all_token_balances := by
  intro s h
  induction h with
  | init =>
    intro t i hfind u b hub
    simp [initial_state, mapFind?] at hfind
  | step i s hr hwfi ih => exact ledger_wf_step i s ih

/-- C1: the claim says a failed command leaves the ledger unchanged, and in
particular an `InsufficientFunds` withdrawal for a previously-absent account
creates no zero-balance entry.  The code violates this: `entry(user).or_insert(0)`
runs before the balance check, so with `"sol"` registered and no entry for
`userB`, withdrawing 5 returns `InsufficientFunds` yet changes the state,
materializing a zero-balance entry for `userB`. -/
theorem C1_failed_withdraw_mutates_state :
    (process_decoded (.UserWithdraw solToken userB 5) ⟨[(solToken, [])]⟩).1
        = .error .InsufficientFunds ∧
    (process_decoded (.UserWithdraw solToken userB 5) ⟨[(solToken, [])]⟩).2
        ≠ ⟨[(solToken, [])]⟩ ∧
    mapFind? (process_decoded (.UserWithdraw solToken userB 5)
        ⟨[(solToken, [])]⟩).2.all_token_balances solToken = some [(userB, 0)] := by
  decide

/-- C2: the claim says a deposit that would exceed the `u64` maximum fails with an
explicit overflow error.  The code has no overflow check: with `userA` holding
`2 ^ 64 - 1` units of `"sol"`, depositing 1 returns `Ok` and the stored balance
silently wraps to 0. -/
theorem C2_deposit_wraps_without_error :
    (process_decoded (.UserDeposit solToken userA 1)
        ⟨[(solToken, [(userA, U64_MOD - 1)])]⟩).1 = .ok () ∧
    balance_of (process_decoded (.UserDeposit solToken userA 1)
        ⟨[(solToken, [(userA, U64_MOD - 1)])]⟩).2.all_token_balances solToken userA
      = 0 := by
  decide

/-- C3: the claim says a command whose claimed principal fails its policy is
rejected with `Unauthorized`.  The code's `verify_signature` is a stub returning
`true` for every principal and proof, so no command is ever rejected as
unauthorized: the `MissingRequiredSignature` branches are dead code. -/
theorem C3_authorization_never_rejects :
    (∀ pk sig, verify_signature pk sig = true) ∧
    ∀ i s, (process_decoded i s).1 ≠ .error .MissingRequiredSignature := by
  refine ⟨fun _ _ => rfl, ?_⟩
  intro i s
  cases i <;>
    simp only [process_decoded, check_add_token, check_delete_token,
      user_deposit_token, user_withdraw_token, verify_signature] <;>
    split_ifs <;> simp_all

/-- C4: every command addressed to an unregistered token fails — `Custom(1)` for
delete, `Custom(2)` for deposit, `Custom(3)` for withdraw (the program's
unknown-asset codes) — and returns the state unchanged. -/
theorem C4_unknown_asset_rejected (s : ContractState) (token : TokenType)
    (user : Pubkey) (amount : Nat)
    (h : mapContains s.all_token_balances token = false) :
    process_decoded (.AdminDeleteSupportedToken token) s = (.error (.Custom 1), s) ∧
    process_decoded (.UserDeposit token user amount) s = (.error (.Custom 2), s) ∧
    process_decoded (.UserWithdraw token user amount) s = (.error (.Custom 3), s) := by
  obtain ⟨atb⟩ := s
  simp only [ContractState.mk.injEq] at h ⊢
  refine ⟨?_, ?_, ?_⟩ <;>
    simp [process_decoded, check_delete_token, user_deposit_token,
      user_withdraw_token, verify_signature, h]

/-- C4 witness: the empty ledger rejects all three commands for `"sol"`. -/
theorem C4_unknown_asset_rejected_witness :
    mapContains (ContractState.mk []).all_token_balances solToken = false ∧
    (process_decoded (.AdminDeleteSupportedToken solToken) ⟨[]⟩
        = (.error (.Custom 1), ⟨[]⟩) ∧
     process_decoded (.UserDeposit solToken userA 7) ⟨[]⟩
        = (.error (.Custom 2), ⟨[]⟩) ∧
     process_decoded (.UserWithdraw solToken userA 7) ⟨[]⟩
        = (.error (.Custom 3), ⟨[]⟩)) :=
  ⟨by decide, C4_unknown_asset_rejected ⟨[]⟩ solToken userA 7 (by decide)⟩

/-- C5: the claim says a malformed envelope is surfaced as a typed `DecodeError`
result.  The code instead calls `.unwrap()` on the decode result, so whenever the
external decoder rejects the bytes the program panics (`none`) rather than
returning any error value. -/
theorem C5_decode_failure_panics (decode : List Nat → Option ContractInstruction)
    (pid : Pubkey) (accounts : List AccountInfo) (data : List Nat)
    (s : ContractState) (h : decode data = none) :
    process_instruction decode pid accounts data s = none := by
  simp [process_instruction, deserialize_instruction, h]

/-- C5 witness: a decoder rejecting the byte `255` makes the entry point panic. -/
theorem C5_decode_failure_panics_witness :
    (fun _ : List Nat => (none : Option ContractInstruction)) [255] = none ∧
    process_instruction (fun _ => none) ADMIN_PUBKEY [] [255] initial_state
      = none :=
  ⟨rfl, C5_decode_failure_panics (fun _ => none) ADMIN_PUBKEY [] [255]
    initial_state rfl⟩

/-- C6 counterexample: the claim quantifies over every registered asset and every
account, but when the account already holds a nonzero balance the final balance
is not `a1 - a2`.  With `userA` holding 5 units of registered `"sol"`,
depositing `a1 = 0` then withdrawing `a2 = 0` (so `a1 ≥ a2 ≥ 0`) succeeds, yet
the balance is 5, not `0 - 0`. -/
theorem C6_sequence_counterexample :
    mapContains ([(solToken, [(userA, 5)])] : TokenBalances) solToken = true ∧
    (user_deposit_token solToken userA 0 [(solToken, [(userA, 5)])]).1 = .ok () ∧
    (user_withdraw_token solToken userA 0
        (user_deposit_token solToken userA 0 [(solToken, [(userA, 5)])]).2).1
      = .ok () ∧
    balance_of (user_withdraw_token solToken userA 0
        (user_deposit_token solToken userA 0 [(solToken, [(userA, 5)])]).2).2
      solToken userA ≠ 0 - 0 := by
  decide

/-- C6 (amended): for a registered asset and an account whose balance for it is
currently zero (or absent), depositing `a1 < 2 ^ 64` and then withdrawing
`a2 ≤ a1` both succeed and leave the balance at `a1 - a2`. -/
theorem C6_deposit_then_withdraw (atb : TokenBalances) (token : TokenType)
    (user : Pubkey) (a1 a2 : Nat) (hreg : mapContains atb token = true)
    (hfresh : balance_of atb token user = 0) (ha1 : a1 < U64_MOD) (hle : a2 ≤ a1) :
    (user_deposit_token token user a1 atb).1 = .ok () ∧
    (user_withdraw_token token user a2 (user_deposit_token token user a1 atb).2).1
      = .ok () ∧
    balance_of
        (user_withdraw_token token user a2
          (user_deposit_token token user a1 atb).2).2 token user
      = a1 - a2 := by
  obtain ⟨inner, hinner⟩ := (mapContains_iff atb token).mp hreg
  have hfresh' : (mapFind? inner user).getD 0 = 0 := by
    simpa [balance_of, hinner] using hfresh
  have hd : user_deposit_token token user a1 atb
      = (.ok (), mapInsert atb token (mapInsert inner user a1)) := by
    simp [user_deposit_token, verify_signature, mapContains, hinner, hfresh',
      Nat.mod_eq_of_lt ha1]
  have h1 : mapFind? (mapInsert atb token (mapInsert inner user a1)) token
      = some (mapInsert inner user a1) := by
    simp [mapFind?_insert]
  have h2 : mapFind? (mapInsert inner user a1) user = some a1 := by
    simp [mapFind?_insert]
  have hnl : ¬ a1 < a2 := Nat.not_lt.mpr hle
  have hw : user_withdraw_token token user a2
        (mapInsert atb token (mapInsert inner user a1))
      = (.ok (), mapInsert (mapInsert atb token (mapInsert inner user a1)) token
          (mapInsert (mapInsert (mapInsert inner user a1) user a1) user (a1 - a2))) := by
    simp [user_withdraw_token, verify_signature, mapContains, h1, h2, hnl]
  refine ⟨by rw [hd], ?_, ?_⟩
  · rw [hd]
    simp only [hw]
  · rw [hd]
    simp only [hw]
    simp [balance_of, mapFind?_insert]

/-- C6 witness: deposit 100 then withdraw 10 on freshly registered `"sol"` leaves
balance 90, mirroring the source's own test. -/
theorem C6_deposit_then_withdraw_witness :
    (user_deposit_token solToken userA 100 [(solToken, [])]).1 = .ok () ∧
    (user_withdraw_token solToken userA 10
        (user_deposit_token solToken userA 100 [(solToken, [])]).2).1 = .ok () ∧
    balance_of (user_withdraw_token solToken userA 10
        (user_deposit_token solToken userA 100 [(solToken, [])]).2).2
      solToken userA = 100 - 10 :=
  C6_deposit_then_withdraw [(solToken, [])] solToken userA 100 10
    (by decide) (by decide) (by decide) (by decide)

/-- C7: registering an already-tracked token fails with `Custom(0)` (the
duplicate-asset code) and returns the ledger unchanged, so the token keeps its
existing balance map; registering an untracked token succeeds and binds it to
the empty balance map. -/
theorem C7_register_no_overwrite (atb : TokenBalances) (token : TokenType) :
    (∀ inner, mapFind? atb token = some inner →
        check_add_token token atb = (.error (.Custom 0), atb)) ∧
    (mapFind? atb token = none →
        check_add_token token atb = (.ok (), mapInsert atb token []) ∧
        mapFind? (mapInsert atb token []) token = some []) := by
  constructor
  · intro inner h
    simp [check_add_token, verify_signature, mapContains, h]
  · intro h
    refine ⟨?_, ?_⟩
    · simp [check_add_token, verify_signature, mapContains, h]
    · simp [mapFind?_insert]

/-- C7 witness: a duplicate `"sol"` registration is rejected without touching the
existing balances, and a fresh registration installs an empty balance map. -/
theorem C7_register_no_overwrite_witness :
    (mapFind? ([(solToken, [(userA, 5)])] : TokenBalances) solToken
        = some [(userA, 5)] ∧
     check_add_token solToken [(solToken, [(userA, 5)])]
        = (.error (.Custom 0), [(solToken, [(userA, 5)])])) ∧
    (mapFind? ([] : TokenBalances) solToken = none ∧
     check_add_token solToken [] = (.ok (), mapInsert [] solToken []) ∧
     mapFind? (mapInsert ([] : TokenBalances) solToken []) solToken = some []) :=
  ⟨⟨by decide, (C7_register_no_overwrite [(solToken, [(userA, 5)])] solToken).1
      [(userA, 5)] (by decide)⟩,
   ⟨by decide, (C7_register_no_overwrite [] solToken).2 (by decide)⟩⟩

/-- C8: deleting a tracked token succeeds, erases the token together with its
whole inner balance map, and afterwards every command for that token fails with
the program's unknown-asset code (`Custom(1)`/`Custom(2)`/`Custom(3)`). -/
theorem C8_deregister_removes_balances (atb : TokenBalances) (token : TokenType)
    (user : Pubkey) (amount : Nat) (h : mapContains atb token = true) :
    check_delete_token token atb = (.ok (), mapErase atb token) ∧
    mapFind? (mapErase atb token) token = none ∧
    (check_delete_token token (mapErase atb token)).1 = .error (.Custom 1) ∧
    (user_deposit_token token user amount (mapErase atb token)).1
      = .error (.Custom 2) ∧
    (user_withdraw_token token user amount (mapErase atb token)).1
      = .error (.Custom 3) := by
  have he : mapFind? (mapErase atb token) token = none := by
    simp [mapFind?_erase]
  have hc : mapContains (mapErase atb token) token = false := by
    simp [mapContains, he]
  refine ⟨by simp [check_delete_token, verify_signature, h], he, ?_, ?_, ?_⟩ <;>
    simp [check_delete_token, user_deposit_token, user_withdraw_token,
      verify_signature, hc]

/-- C8 witness: deleting `"sol"` (whose holder has balance 90) removes the whole
inner map and subsequent commands for `"sol"` are rejected. -/
theorem C8_deregister_removes_balances_witness :
    mapContains ([(solToken, [(userA, 90)])] : TokenBalances) solToken = true ∧
    (check_delete_token solToken [(solToken, [(userA, 90)])]
        = (.ok (), mapErase [(solToken, [(userA, 90)])] solToken) ∧
     mapFind? (mapErase ([(solToken, [(userA, 90)])] : TokenBalances) solToken)
        solToken = none ∧
     (check_delete_token solToken
        (mapErase [(solToken, [(userA, 90)])] solToken)).1 = .error (.Custom 1) ∧
     (user_deposit_token solToken userA 7
        (mapErase [(solToken, [(userA, 90)])] solToken)).1 = .error (.Custom 2) ∧
     (user_withdraw_token solToken userA 7
        (mapErase [(solToken, [(userA, 90)])] solToken)).1 = .error (.Custom 3)) :=
  ⟨by decide, C8_deregister_removes_balances [(solToken, [(userA, 90)])] solToken
    userA 7 (by decide)⟩

/-- C9: every command preserves well-formedness of the ledger (all stored
balances fit in a `u64`, hence are nonnegative); every state reachable from the
empty initial state is well formed; and an inner account-to-balance map exists
for a token exactly when the token is present in the registry — in this program
the registry IS the key set of the one nested map. -/
theorem C9_reachable_invariant :
    (∀ i s, ledger_wf s.all_token_balances →
        ledger_wf (process_decoded i s).2.all_token_balances) ∧
    (∀ s, Reachable s → ledger_wf s.all_token_balances) ∧
    (∀ (atb : TokenBalances) (token : TokenType),
        (∃ inner, mapFind? atb token = some inner) ↔ mapContains atb token = true) :=
  ⟨ledger_wf_step, reachable_ledger_wf,
   fun atb token => (mapContains_iff atb token).symm⟩

/-- C9 witness: registering `"sol"` and depositing 100 from the initial state
reaches a well-formed ledger. -/
theorem C9_reachable_invariant_witness :
    ledger_wf (process_decoded (.UserDeposit solToken userA 100)
        (process_decoded (.AdminAddSupportedToken solToken) initial_state).2
      ).2.all_token_balances :=
  C9_reachable_invariant.2.1 _
    (Reachable.step _ _ (Reachable.step _ _ Reachable.init (by decide)) (by decide))

/-- C10: the entry point ignores its `_program_id` and `_accounts` arguments, so
with the same decoder, instruction bytes and prior state, the returned result
and resulting state are identical for any two values of those arguments. -/
theorem C10_independent_of_runtime_arguments
    (decode : List Nat → Option ContractInstruction) (pid1 pid2 : Pubkey)
    (accs1 accs2 : List AccountInfo) (data : List Nat) (s : ContractState) :
    process_instruction decode pid1 accs1 data s
      = process_instruction decode pid2 accs2 data s := rfl
